import Mathlib

/-!
Verification development for the Civic Housing Intelligence meeting-ingestion
pipeline (`meeting_ingestion_pipeline.py`, `legistar_discovery.py`,
`config.py`).  Python strings are modelled as `List Char`, floats as `ℚ`,
JSON values as the inductive `PyVal`, and the filesystem / network as
explicit oracle parameters.
-/

-- ===========================================================================
-- String utilities (models of the Python `str` operations used by the code)
-- ===========================================================================

/-- Character strings modelled as lists of characters. -/
abbrev Str := List Char

/-- Model of `str.lower()`. -/
def lowerStr (s : Str) : Str := s.map Char.toLower

/-- ASCII whitespace, as recognised by Python `str.strip` / regex `\s`. -/
def isSpaceCh (c : Char) : Bool :=
  c = ' ' || c = '\t' || c = '\n' || c = '\r' || c = '\x0b' || c = '\x0c'

/-- ASCII decimal digit, as recognised by `str.isdigit` / regex `\d`. -/
def isDigitCh (c : Char) : Bool := '0' ≤ c && c ≤ '9'

/-- Regex `\w`: letters, digits and underscore. -/
def isWordCh (c : Char) : Bool := c.isAlpha || isDigitCh c || c = '_'

/-- Model of `str.strip()` (left part). -/
def stripLeftStr (s : Str) : Str := s.dropWhile isSpaceCh

/-- Model of `str.strip()`. -/
def stripStr (s : Str) : Str :=
  ((s.dropWhile isSpaceCh).reverse.dropWhile isSpaceCh).reverse

/-- Model of Python `str.isdigit()`: non-empty and all digits. -/
def isDigitsStr (s : Str) : Bool := !s.isEmpty && s.all isDigitCh

/-- Does `needle` occur at the very start of `haystack`? -/
def strStartsWith : Str → Str → Bool
  | [], _ => true
  | _ :: _, [] => false
  | a :: as, b :: bs => a == b && strStartsWith as bs

/-- Model of the Python substring test `needle in haystack`. -/
def strHasSub (needle : Str) : Str → Bool
  | [] => strStartsWith needle []
  | c :: rest => strStartsWith needle (c :: rest) || strHasSub needle rest

/-- Model of `sep.join(parts)`. -/
def joinSep (sep : Str) : List Str → Str
  | [] => []
  | [p] => p
  | p :: ps => p ++ sep ++ joinSep sep ps

/-- Decimal rendering of a natural number, as Python `str`/`int` formatting. -/
def natToStr (n : Nat) : Str := (Nat.repr n).data

/-- Numeric value of a decimal digit string (Python `int(s)` on digits). -/
def natOfDigits (s : Str) : Nat :=
  s.foldl (fun acc c => acc * 10 + (c.toNat - '0'.toNat)) 0

/-- Zero-padded decimal formatting, Python `f"{n:0wd}"`. -/
def padNum (w : Nat) (n : Nat) : Str :=
  let s := natToStr n
  List.replicate (w - s.length) '0' ++ s

/-- Python builtin `min` on two comparable values (first argument wins ties). -/
def pymin (a b : ℚ) : ℚ := if a ≤ b then a else b

-- ===========================================================================
-- Keyword vocabularies (from config.py)
-- ===========================================================================

/-- `HOUSING_KEYWORDS` from `config.py`. -/
def housingKeywords : List Str :=
  [ "inclusionary zoning".data
  , "density bonus".data
  , "rezoning".data
  , "upzoning".data
  , "mixed-use".data
  , "accessory dwelling unit".data
  , "ADU".data
  , "transit-oriented development".data
  , "TOD".data
  , "single-family zoning".data
  , "missing middle".data
  , "housing trust fund".data
  , "LIHTC".data
  , "low-income housing tax credit".data
  , "Section 8".data
  , "housing choice voucher".data
  , "CDBG".data
  , "community development block grant".data
  , "HOME funds".data
  , "tax increment financing".data
  , "TIF".data
  , "opportunity zone".data
  , "area median income".data
  , "AMI".data
  , "affordable housing".data
  , "workforce housing".data
  , "attainable housing".data
  , "below market rate".data
  , "rent stabilization".data
  , "rent control".data
  , "just cause eviction".data
  , "housing development".data
  , "apartment".data
  , "multifamily".data
  , "condominium".data
  , "townhome".data
  , "subdivision".data
  , "building permit".data
  , "site plan".data
  , "housing authority".data
  , "Colorado Housing and Finance Authority".data
  , "CHFA".data
  , "HUD".data
  , "Habitat for Humanity".data
  , "homelessness".data
  , "unhoused".data
  , "shelter".data
  , "supportive housing".data
  , "permanent supportive housing".data
  , "navigation center".data ]

/-- `housing_body_terms` from `LegistarDiscovery._score_housing_relevance`. -/
def housingBodyTerms : List Str :=
  ["housing".data, "planning".data, "land use".data, "zoning".data]

-- ===========================================================================
-- Legistar data model and relevance scoring (legistar_discovery.py)
-- ===========================================================================

/-- `LegistarEventItem` (the fields used by the scorer). -/
structure LegistarEventItem where
  event_item_id : Nat
  title : Str
  action_text : Str
  matter_name : Str
  matter_type : Str
  matter_status : Str
deriving DecidableEq

/-- `LegistarEvent` (the fields used by the scorer). -/
structure LegistarEvent where
  event_id : Nat
  body_name : Str
  date : Str
  items : List LegistarEventItem
deriving DecidableEq

/-- The `text_parts` list built by `_score_housing_relevance`:
title, matter name, action text, matter type of every item, in order. -/
def eventTextParts (e : LegistarEvent) : List Str :=
  e.items.flatMap (fun it => [it.title, it.matter_name, it.action_text, it.matter_type])

/-- `" ".join(text_parts).lower()`. -/
def eventCombinedText (e : LegistarEvent) : Str :=
  lowerStr (joinSep " ".data (eventTextParts e))

/-- `sum(1 for kw in HOUSING_KEYWORDS if kw.lower() in combined)`. -/
def keywordMatchCount (combined : Str) : Nat :=
  (housingKeywords.filter (fun kw => strHasSub (lowerStr kw) combined)).length

/-- `LegistarDiscovery._score_housing_relevance`, translated line by line. -/
def scoreHousingRelevance (e : LegistarEvent) : ℚ :=
  if e.items = [] then
    if housingBodyTerms.any (fun t => strHasSub t (lowerStr e.body_name)) then
      3/10
    else
      1/10
  else if stripStr (eventCombinedText e) = [] then 1/10
  else pymin 1 ((keywordMatchCount (eventCombinedText e) : ℚ) / 5)

-- ===========================================================================
-- Date extraction (MeetingDiscovery, meeting_ingestion_pipeline.py)
-- ===========================================================================

/-- First-match lookup in an association list (Python `dict.get`). -/
def alookup {α : Type} : List (Str × α) → Str → Option α
  | [], _ => none
  | (k, v) :: rest, key => if k = key then some v else alookup rest key

/-- `MeetingDiscovery.MONTH_MAP`. -/
def monthMap : List (Str × Nat) :=
  [ ("january".data, 1), ("february".data, 2), ("march".data, 3), ("april".data, 4)
  , ("may".data, 5), ("june".data, 6), ("july".data, 7), ("august".data, 8)
  , ("september".data, 9), ("october".data, 10), ("november".data, 11)
  , ("december".data, 12)
  , ("jan".data, 1), ("feb".data, 2), ("mar".data, 3), ("apr".data, 4)
  , ("jun".data, 6), ("jul".data, 7), ("aug".data, 8), ("sep".data, 9)
  , ("sept".data, 9), ("oct".data, 10), ("nov".data, 11), ("dec".data, 12) ]

/-- Take exactly `n` leading decimal digits, returning them and the rest. -/
def digitsTakeN (n : Nat) (s : Str) : Option (Str × Str) :=
  let t := s.take n
  if t.length = n && t.all isDigitCh then some (t, s.drop n) else none

/-- Remainder of date pattern 1 after the day group: `,?\s+(?P<year>\d{4})`.
The optional comma is consumed when present (backtracking cannot help:
`\s` never matches `,`), `\s+` must consume a maximal whitespace run
(the next token is a digit), then exactly four digits are captured. -/
def p1AfterDay (t : Str) : Option Str :=
  let t1 := match t with
    | ',' :: r => r
    | _ => t
  if t1.takeWhile isSpaceCh = [] then none
  else (digitsTakeN 4 (t1.dropWhile isSpaceCh)).map (fun z => z.1)

/-- Date pattern 1 anchored at the current position:
`(?P<month>\w+)\s+(?P<day>\d{1,2}),?\s+(?P<year>\d{4})`.
`\w+` must take the maximal word run (a shorter match leaves a word
character where `\s` is required); `\d{1,2}` is greedy with backtracking,
so two digits are tried before one.  Returns `(month, day, year)`. -/
def p1At (s : Str) : Option (Str × Str × Str) :=
  let mo := s.takeWhile isWordCh
  if mo = [] then none
  else
    let r1 := s.dropWhile isWordCh
    if r1.takeWhile isSpaceCh = [] then none
    else
      let r2 := r1.dropWhile isSpaceCh
      let try1 := fun (_ : Unit) =>
        (digitsTakeN 1 r2).bind fun z =>
          (p1AfterDay z.2).map fun y => (mo, z.1, y)
      match digitsTakeN 2 r2 with
      | some (d2, rest2) =>
        match p1AfterDay rest2 with
        | some y => some (mo, d2, y)
        | none => try1 ()
      | none => try1 ()

/-- `[/\-]` separator class of date pattern 2. -/
def isSepCh (c : Char) : Bool := c = '/' || c = '-'

/-- Remainder of date pattern 2 after the month: `[/\-]\d{1,2}[/\-]\d{4}`,
returning `(day, year)`.  The day is greedy (two digits tried first). -/
def p2AfterMonth (t : Str) : Option (Str × Str) :=
  match t with
  | [] => none
  | c :: r =>
    if isSepCh c then
      let tryDay := fun (z : Str × Str) =>
        match z.2 with
        | c2 :: r2 =>
          if isSepCh c2 then (digitsTakeN 4 r2).map (fun yz => (z.1, yz.1)) else none
        | [] => none
      match (digitsTakeN 2 r).bind tryDay with
      | some dy => some dy
      | none => (digitsTakeN 1 r).bind tryDay
    else none

/-- Date pattern 2 anchored at the current position:
`(?P<month>\d{1,2})[/\-](?P<day>\d{1,2})[/\-](?P<year>\d{4})`.
Returns `(month, day, year)`. -/
def p2At (s : Str) : Option (Str × Str × Str) :=
  let withMonth := fun (z : Str × Str) =>
    (p2AfterMonth z.2).map fun dy => (z.1, dy.1, dy.2)
  match (digitsTakeN 2 s).bind withMonth with
  | some r => some r
  | none => (digitsTakeN 1 s).bind withMonth

/-- Date pattern 3 anchored at the current position:
`(?P<year>\d{4})-(?P<month>\d{1,2})-(?P<day>\d{1,2})`.
Returns `(month, day, year)` (groups reordered to the common shape). -/
def p3At (s : Str) : Option (Str × Str × Str) :=
  (digitsTakeN 4 s).bind fun yz =>
    match yz.2 with
    | [] => none
    | c :: r2 =>
      if c = '-' then
        let tryMo := fun (mz : Str × Str) =>
          match mz.2 with
          | [] => none
          | c2 :: r3 =>
            if c2 = '-' then
              match digitsTakeN 2 r3 with
              | some (d, _) => some (mz.1, d)
              | none => (digitsTakeN 1 r3).map (fun dz => (mz.1, dz.1))
            else none
        match (digitsTakeN 2 r2).bind tryMo with
        | some (mo, d) => some (mo, d, yz.1)
        | none => ((digitsTakeN 1 r2).bind tryMo).map (fun md => (md.1, md.2, yz.1))
      else none

/-- `re.search`: try the anchored matcher at each position, leftmost first. -/
def searchPat {α : Type} (pAt : Str → Option α) : Str → Option α
  | [] => pAt []
  | c :: rest =>
    match pAt (c :: rest) with
    | some r => some r
    | none => searchPat pAt rest

/-- Month-group resolution in `_extract_date`: digits are taken literally
(`int(month)`), otherwise the lowercased name is looked up in `MONTH_MAP`
with default `0`. -/
def monthNum (mo : Str) : Nat :=
  if isDigitsStr mo then natOfDigits mo
  else (alookup monthMap (lowerStr mo)).getD 0

/-- `f"{year_int:04d}-{month_int:02d}-{day_int:02d}"`. -/
def fmtDate (y mo d : Nat) : Str :=
  padNum 4 y ++ "-".data ++ padNum 2 mo ++ "-".data ++ padNum 2 d

/-- Turn a raw pattern match into a formatted date, or `none` when the
month resolves to `0` (the `continue` branch of `_extract_date`). -/
def tryFmt (r : Option (Str × Str × Str)) : Option Str :=
  r.bind fun g =>
    let mi := monthNum g.1
    if mi = 0 then none
    else some (fmtDate (natOfDigits g.2.2) mi (natOfDigits g.2.1))

/-- `MeetingDiscovery._extract_date`: the three patterns in order, first
match whose month parses wins; empty string when all fail. -/
def extractDate (title : Str) : Str :=
  match tryFmt (searchPat p1At title) with
  | some d => d
  | none =>
    match tryFmt (searchPat p2At title) with
    | some d => d
    | none =>
      match tryFmt (searchPat p3At title) with
      | some d => d
      | none => []

/-- The `upload_date` reformatting of `discover_from_youtube`:
`f"{d[:4]}-{d[4:6]}-{d[6:8]}"`. -/
def reformatUpload (d : Str) : Str :=
  d.take 4 ++ "-".data ++ ((d.drop 4).take 2) ++ "-".data ++ ((d.drop 6).take 2)

/-- Lines 206-208 of `discover_from_youtube`:
`date_str = self._extract_date(title) or entry.get("upload_date", "")`
followed by the 8-digit reformatting. -/
def deriveDate (title upload : Str) : Str :=
  let d := extractDate title
  let d2 := if d = [] then upload else d
  if d2.length = 8 && d2.all isDigitCh then reformatUpload d2 else d2

-- ===========================================================================
-- Python / JSON values
-- ===========================================================================

/-- Values produced by `json.loads` (and passed around Python dynamically):
objects, arrays, strings, numbers (int and float merged into `ℚ`),
booleans, and `None`. -/
inductive PyVal where
  | obj (kvs : List (Str × PyVal))
  | arr (xs : List PyVal)
  | str (s : Str)
  | num (q : ℚ)
  | bool (b : Bool)
  | null

/-- Python truthiness of a value (`if x:`). -/
def pyTruthy : PyVal → Bool
  | .obj kvs => !kvs.isEmpty
  | .arr xs => !xs.isEmpty
  | .str s => !s.isEmpty
  | .num q => decide (q ≠ 0)
  | .bool b => b
  | .null => false

/-- Python exception classes relevant to the modelled code paths. -/
inductive PyErr where
  | attributeError
  | typeError
  | keyError

-- ===========================================================================
-- The Meeting record (meeting_ingestion_pipeline.py, dataclass `Meeting`)
-- ===========================================================================

/-- The `Meeting` dataclass.  Field order and defaults follow the source.
`housing_relevance_score` is declared `float` in the source but receives
whatever JSON value `analysis.get("housing_relevance_score", 0.0)` yields
(Python does not check dataclass field types), so it is modelled as `PyVal`. -/
structure Meeting where
  id : Str
  jurisdiction : Str
  title : Str
  date : Str
  video_url : Str
  source : Str
  duration_minutes : ℚ := 0
  audio_path : Str := []
  transcript_path : Str := []
  analysis_path : Str := []
  summary_path : Str := []
  housing_mentions : Nat := 0
  housing_relevance_score : PyVal := .num 0
  processed : Bool := false
  error : Str := []

/-- A `Meeting` as reconstructed by `Meeting.from_dict`: Python performs no
type checking on `cls(**filtered)`, so every field holds a dynamic value. -/
structure MeetingPy where
  id : PyVal
  jurisdiction : PyVal
  title : PyVal
  date : PyVal
  video_url : PyVal
  source : PyVal
  duration_minutes : PyVal
  audio_path : PyVal
  transcript_path : PyVal
  analysis_path : PyVal
  summary_path : PyVal
  housing_mentions : PyVal
  housing_relevance_score : PyVal
  processed : PyVal
  error : PyVal

/-- The dynamic view of a well-typed `Meeting`. -/
def Meeting.py (m : Meeting) : MeetingPy :=
  ⟨.str m.id, .str m.jurisdiction, .str m.title, .str m.date, .str m.video_url
  , .str m.source, .num m.duration_minutes, .str m.audio_path
  , .str m.transcript_path, .str m.analysis_path, .str m.summary_path
  , .num m.housing_mentions, m.housing_relevance_score, .bool m.processed
  , .str m.error⟩

/-- The dataclass field names, in declaration order. -/
def knownFields : List Str :=
  [ "id".data, "jurisdiction".data, "title".data, "date".data, "video_url".data
  , "source".data, "duration_minutes".data, "audio_path".data
  , "transcript_path".data, "analysis_path".data, "summary_path".data
  , "housing_mentions".data, "housing_relevance_score".data, "processed".data
  , "error".data ]

/-- `Meeting.to_dict` (`dataclasses.asdict`): every field under its name,
in declaration order. -/
def Meeting.to_dict (m : Meeting) : List (Str × PyVal) :=
  [ ("id".data, .str m.id)
  , ("jurisdiction".data, .str m.jurisdiction)
  , ("title".data, .str m.title)
  , ("date".data, .str m.date)
  , ("video_url".data, .str m.video_url)
  , ("source".data, .str m.source)
  , ("duration_minutes".data, .num m.duration_minutes)
  , ("audio_path".data, .str m.audio_path)
  , ("transcript_path".data, .str m.transcript_path)
  , ("analysis_path".data, .str m.analysis_path)
  , ("summary_path".data, .str m.summary_path)
  , ("housing_mentions".data, .num m.housing_mentions)
  , ("housing_relevance_score".data, m.housing_relevance_score)
  , ("processed".data, .bool m.processed)
  , ("error".data, .str m.error) ]

/-- `{k: v for k, v in data.items() if k in known_fields}`. -/
def filterKnown (kvs : List (Str × PyVal)) : List (Str × PyVal) :=
  kvs.filter (fun kv => knownFields.contains kv.1)

/-- `cls(**filtered)`: raises `TypeError` when one of the six fields
without a default is missing, otherwise builds the record with the given
values and the declared defaults for absent optional fields. -/
def buildMeeting (f : List (Str × PyVal)) : Except PyErr MeetingPy :=
  match alookup f "id".data, alookup f "jurisdiction".data,
        alookup f "title".data, alookup f "date".data,
        alookup f "video_url".data, alookup f "source".data with
  | some i, some j, some t, some d, some v, some s =>
    .ok ⟨i, j, t, d, v, s
        , (alookup f "duration_minutes".data).getD (.num 0)
        , (alookup f "audio_path".data).getD (.str [])
        , (alookup f "transcript_path".data).getD (.str [])
        , (alookup f "analysis_path".data).getD (.str [])
        , (alookup f "summary_path".data).getD (.str [])
        , (alookup f "housing_mentions".data).getD (.num 0)
        , (alookup f "housing_relevance_score".data).getD (.num 0)
        , (alookup f "processed".data).getD (.bool false)
        , (alookup f "error".data).getD (.str [])⟩
  | _, _, _, _, _, _ => .error .typeError

/-- `Meeting.from_dict`: `data.items()` raises `AttributeError` unless the
value is a dict; known keys are kept and the record is constructed. -/
def Meeting.from_dict (v : PyVal) : Except PyErr MeetingPy :=
  match v with
  | .obj kvs => buildMeeting (filterKnown kvs)
  | _ => .error .attributeError

-- ===========================================================================
-- The record store (MeetingDatabase)
-- ===========================================================================

/-- The in-memory store: insertion-ordered key/record pairs (Python dict). -/
abbrev DB := List (Str × Meeting)

/-- Python dict assignment `d[k] = m`: replace in place, else append. -/
def setKey : DB → Str → Meeting → DB
  | [], k, m => [(k, m)]
  | (k0, m0) :: rest, k, m =>
    if k0 = k then (k0, m) :: rest else (k0, m0) :: setKey rest k m

/-- `MeetingDatabase.upsert`: `self.meetings[meeting.id] = meeting`
(followed by a whole-file save, which has no in-memory effect). -/
def MeetingDatabase.upsert (db : DB) (m : Meeting) : DB := setKey db m.id m

/-- `MeetingDatabase.get`. -/
def MeetingDatabase.get (db : DB) (k : Str) : Option Meeting := alookup db k

/-- The records held by the store. -/
def dbValues (db : DB) : List Meeting := db.map Prod.snd

/-- `MeetingDatabase.list_unprocessed`. -/
def list_unprocessed (db : DB) : List Meeting :=
  (dbValues db).filter (fun m => !m.processed)

/-- Number of entries stored under a given key. -/
def countKey (db : DB) (k : Str) : Nat :=
  (db.filter (fun kv => kv.1 = k)).length

/-- Key uniqueness of a store. -/
def keysNodup (db : DB) : Prop := (db.map Prod.fst).Nodup

-- ===========================================================================
-- Store loading (MeetingDatabase._load)
-- ===========================================================================

/-- The state of the persisted store file: missing, present but not valid
JSON, or present with the given parsed JSON content. -/
inductive StoreFile where
  | absent
  | notJson
  | json (v : PyVal)

/-- The dict comprehension of `_load`: convert every value via
`Meeting.from_dict`, propagating the first exception. -/
def loadMeetingsAux : List (Str × PyVal) → Except PyErr (List (Str × MeetingPy))
  | [] => .ok []
  | (mid, v) :: rest =>
    match Meeting.from_dict v with
    | .error e => .error e
    | .ok mp => (loadMeetingsAux rest).map (fun ms => (mid, mp) :: ms)

/-- `MeetingDatabase._load`: a missing file or a `json.JSONDecodeError`
(and a `KeyError`, the only other caught class) yield the empty store;
any other exception propagates to the caller. -/
def MeetingDatabase.load (f : StoreFile) : Except PyErr (List (Str × MeetingPy)) :=
  match f with
  | .absent => .ok []
  | .notJson => .ok []
  | .json (.obj kvs) =>
    match loadMeetingsAux kvs with
    | .ok ms => .ok ms
    | .error .keyError => .ok []
    | .error e => .error e
  | .json _ => .error .attributeError

-- ===========================================================================
-- Transcript formatting (TranscriptionService.format_transcript)
-- ===========================================================================

/-- One entry of the Deepgram `utterances` list (fields used by the code).
The speaker label is an integer when present, rendered as `?` otherwise. -/
structure DGUtterance where
  speaker : Option Nat
  transcript : Str

/-- One entry of a paragraph's `sentences` list. -/
structure DGSentence where
  text : Str

/-- One entry of the paragraphs list. -/
structure DGParagraph where
  speaker : Option Nat
  sentences : List DGSentence

/-- The Deepgram response document, reduced to the four access paths the
formatter reads.  A missing or empty list is modelled as `[]` (both are
falsy in Python) and a missing transcript string as `[]`. -/
structure DGData where
  resUtterances : List DGUtterance
  topUtterances : List DGUtterance
  paragraphs : List DGParagraph
  transcript : Str

/-- `u.get("speaker", "?")` rendered into an f-string. -/
def speakerShow : Option Nat → Str
  | some n => natToStr n
  | none => "?".data

/-- One utterance line: `[Speaker {speaker}]: {text}` for non-blank text. -/
def uttLine (u : DGUtterance) : Option Str :=
  let text := stripStr u.transcript
  if text = [] then none
  else some ("[Speaker ".data ++ speakerShow u.speaker ++ "]: ".data ++ text)

/-- One paragraph line: sentences joined by spaces, stripped, skipped when
blank. -/
def paraLine (p : DGParagraph) : Option Str :=
  let sentences := joinSep " ".data (p.sentences.map DGSentence.text)
  if stripStr sentences = [] then none
  else some ("[Speaker ".data ++ speakerShow p.speaker ++ "]: ".data ++ stripStr sentences)

/-- `data.get("results", {}).get("utterances") or data.get("utterances")`:
the top-level list is used when the nested one is missing or empty. -/
def effUtterances (d : DGData) : List DGUtterance :=
  if d.resUtterances.isEmpty then d.topUtterances else d.resUtterances

/-- Body of `format_transcript` after a successful read of the JSON file. -/
def formatDG (d : DGData) : Str :=
  let utterances := effUtterances d
  if !utterances.isEmpty then
    joinSep "\n\n".data (utterances.filterMap uttLine)
  else if !d.paragraphs.isEmpty then
    joinSep "\n\n".data (d.paragraphs.filterMap paraLine)
  else d.transcript

/-- `TranscriptionService.format_transcript`: an unreadable or unparseable
transcript file (`none`) yields the empty string. -/
def TranscriptionService.format_transcript (d : Option DGData) : Str :=
  match d with
  | none => []
  | some x => formatDG x

-- ===========================================================================
-- JSON extraction (HousingAnalyzer._extract_json)
-- ===========================================================================

/-- `\s*` followed by the literal closing fence ```` ``` ````:  the greedy
whitespace run is forced to be maximal because a backtick is not
whitespace. -/
def fenceTailOk (rest : Str) : Bool :=
  strStartsWith "```".data (rest.dropWhile isSpaceCh)

/-- The lazy group `(\{.*?\})\s*` + closing fence, scanning the text after
the opening brace: the first closing brace whose tail matches wins; on
failure the lazy `.*?` extends past it. `acc` holds the scanned content
reversed. -/
def fenceContent : Str → Str → Option Str
  | [], _ => none
  | c :: rest, acc =>
    if c = '\x7d' then
      if fenceTailOk rest then some (acc.reverse ++ ['\x7d'])
      else fenceContent rest (c :: acc)
    else fenceContent rest (c :: acc)

/-- `\s*(\{...` after the opening fence (and optional `json` tag): the
greedy whitespace run is forced maximal because `{` is not whitespace. -/
def fenceBody (t : Str) : Option Str :=
  match t.dropWhile isSpaceCh with
  | '\x7b' :: rest => (fenceContent rest []).map (fun g => '\x7b' :: g)
  | _ => none

/-- `(?:json)?` is greedy: the tagged alternative is tried first. -/
def fenceAfterTicks (t : Str) : Option Str :=
  match (if strStartsWith "json".data t then fenceBody (t.drop 4) else none) with
  | some g => some g
  | none => fenceBody t

/-- `re.search` of ```` ```(?:json)?\s*(\{.*?\})\s*``` ```` (DOTALL):
leftmost start position wins. -/
def searchFence : Str → Option Str
  | [] => none
  | c :: rest =>
    match
      (if strStartsWith "```".data (c :: rest) then
        fenceAfterTicks ((c :: rest).drop 3)
      else none) with
    | some g => some g
    | none => searchFence rest

/-- `re.search(r"\{.*\}", text, DOTALL)`: from the first `{`, greedily to
the last `}` that follows it; no match when no `}` follows the first `{`. -/
def braceSearch (text : Str) : Option Str :=
  let i := (text.takeWhile (fun c => c ≠ '\x7b')).length
  match text.drop i with
  | [] => none
  | _ :: rest =>
    let k := (rest.reverse.takeWhile (fun c => c ≠ '\x7d')).length
    if k = rest.length then none
    else some ('\x7b' :: rest.take (rest.length - k))

/-- `HousingAnalyzer._extract_json`, parameterised by the behaviour of
`json.loads` (`none` models a `json.JSONDecodeError`): three strategies in
order, first successful parse wins, empty dict on total failure. -/
def HousingAnalyzer.extract_json (jloads : Str → Option PyVal) (text : Str) : PyVal :=
  match (searchFence text).bind jloads with
  | some v => v
  | none =>
    match jloads text with
    | some v => v
    | none =>
      match (braceSearch text).bind jloads with
      | some v => v
      | none => .obj []

-- ===========================================================================
-- Pipeline stages (meeting_ingestion_pipeline.py), with the filesystem and
-- the external services as explicit oracles
-- ===========================================================================

/-- External side effects observable at a stage boundary. -/
inductive ExtCall where
  | subproc
  | http
deriving DecidableEq

/-- The filesystem: a path maps to the file content when the file exists. -/
abbrev FS := Str → Option Str

/-- `AUDIO_DIR / f"{meeting.id}.{PROCESSING['audio_format']}"`. -/
def audioPath (m : Meeting) : Str :=
  "meetings_data/audio/".data ++ m.id ++ ".mp3".data

/-- `TRANSCRIPT_DIR / f"{meeting.id}_transcript.json"`. -/
def transcriptPath (m : Meeting) : Str :=
  "meetings_data/transcripts/".data ++ m.id ++ "_transcript.json".data

/-- `ANALYSIS_DIR / f"{meeting.id}_analysis.json"`. -/
def analysisPath (m : Meeting) : Str :=
  "meetings_data/analysis/".data ++ m.id ++ "_analysis.json".data

/-- `ANALYSIS_DIR / f"{meeting.id}_summary.md"`. -/
def summaryPath (m : Meeting) : Str :=
  "meetings_data/analysis/".data ++ m.id ++ "_summary.md".data

/-- The behaviour of the external world during one run.  `downloadMiss`
is the subprocess branch of the audio stage (resulting path, `[]` for a
handled failure, `.error` for an unhandled exception); `transcribeMiss`
is the Deepgram POST (`true`: transcript written, `false`: handled
failure); `formatT` is the formatted text of a transcript file;
`claudeMiss` is the Claude POST (`none`: handled request failure,
otherwise the concatenated response text). -/
structure World where
  deepgramKey : Str
  anthropicKey : Str
  downloadMiss : Meeting → Except Unit Str
  transcribeMiss : Meeting → Except Unit Bool
  formatT : Str → Str
  claudeMiss : Str → Meeting → Except Unit (Option Str)

/-- `VideoProcessor.download_audio`: return the cached artifact path when
it exists, otherwise run the subprocess branch. -/
def downloadAudioStage (fs : FS) (w : World) (m : Meeting) :
    Except Unit (Str × List ExtCall) :=
  if (fs (audioPath m)).isSome then .ok (audioPath m, [])
  else
    match w.downloadMiss m with
    | .ok p => .ok (p, [.subproc])
    | .error u => .error u

/-- `TranscriptionService.transcribe`: an unset API key returns the empty
string before the cache check; otherwise return the cached transcript
path when it exists, else POST to Deepgram. -/
def transcribeStage (fs : FS) (w : World) (m : Meeting) :
    Except Unit (Str × List ExtCall) :=
  if w.deepgramKey = [] then .ok ([], [])
  else if (fs (transcriptPath m)).isSome then .ok (transcriptPath m, [])
  else
    match w.transcribeMiss m with
    | .ok true => .ok (transcriptPath m, [.http])
    | .ok false => .ok ([], [.http])
    | .error u => .error u

/-- The parse-failure marker object of `HousingAnalyzer.analyze`:
`{"raw_response": raw_text, "parse_error": True}`. -/
def markerObj (raw : Str) : PyVal :=
  .obj [("raw_response".data, .str raw), ("parse_error".data, .bool true)]

/-- `HousingAnalyzer.analyze`: an unset API key returns `{}`; a cached
artifact that exists *and parses as JSON* is returned without any call
(a cached artifact that fails to parse falls through to re-analysis,
exactly as the `except json.JSONDecodeError: pass` in the source);
otherwise POST to Claude, extract JSON from the response, and replace a
falsy extraction result by the parse-failure marker. -/
def analyzeStage (fs : FS) (jloads : Str → Option PyVal) (w : World)
    (ttext : Str) (m : Meeting) : Except Unit (PyVal × List ExtCall) :=
  if w.anthropicKey = [] then .ok (.obj [], [])
  else
    match (fs (analysisPath m)).bind jloads with
    | some v => .ok (v, [])
    | none =>
      match w.claudeMiss ttext m with
      | .error u => .error u
      | .ok none => .ok (.obj [], [.http])
      | .ok (some raw) =>
        let analysis := HousingAnalyzer.extract_json jloads raw
        .ok (if pyTruthy analysis then analysis else markerObj raw, [.http])

/-- `HousingAnalyzer.count_housing_mentions`. -/
def count_housing_mentions (text : Str) : Nat :=
  (housingKeywords.filter (fun kw => strHasSub (lowerStr kw) (lowerStr text))).length

-- ===========================================================================
-- The orchestrator (MeetingPipeline)
-- ===========================================================================

/-- `MeetingPipeline._process_meeting`, returning the final record state.
`.error me` models an unhandled exception escaping with the record
mutated up to the raise point; all other paths end in the record that the
source upserts last. -/
def process_meeting (fs : FS) (jloads : Str → Option PyVal) (w : World)
    (m0 : Meeting) : Except Meeting Meeting :=
  match downloadAudioStage fs w m0 with
  | .error _ => .error m0
  | .ok (apath, _) =>
    if apath = [] then .ok { m0 with error := "download_failed".data }
    else
      let m1 := { m0 with audio_path := apath }
      if w.deepgramKey = [] then .ok { m1 with error := "no_deepgram_key".data }
      else
        match transcribeStage fs w m1 with
        | .error _ => .error m1
        | .ok (tpath, _) =>
          if tpath = [] then .ok { m1 with error := "transcription_failed".data }
          else
            let m2 := { m1 with transcript_path := tpath }
            let ttext := w.formatT tpath
            if ttext = [] then .ok { m2 with error := "empty_transcript".data }
            else
              let m3 := { m2 with housing_mentions := count_housing_mentions ttext }
              if w.anthropicKey = [] then .ok { m3 with error := "no_anthropic_key".data }
              else
                match analyzeStage fs jloads w ttext m3 with
                | .error _ => .error m3
                | .ok (a, _) =>
                  if pyTruthy a then
                    let m4 := { m3 with analysis_path := analysisPath m3
                                      , summary_path := summaryPath m3 }
                    match a with
                    | .obj kvs =>
                      .ok { m4 with
                            housing_relevance_score :=
                              (alookup kvs "housing_relevance_score".data).getD (.num 0)
                          , processed := true
                          , error := [] }
                    | _ => .error m4
                  else .ok { m3 with error := "analysis_failed".data }

/-- The record that one iteration of `MeetingPipeline.run` upserts for a
meeting: the processor's result, or — when an exception escaped — the
record at the raise point tagged `unexpected_error`. -/
def resultRecord (proc : Meeting → Except Meeting Meeting) (m : Meeting) : Meeting :=
  match proc m with
  | .ok m2 => m2
  | .error me => { me with error := "unexpected_error".data }

/-- One iteration of the per-record loop of `MeetingPipeline.run`. -/
def runStep (proc : Meeting → Except Meeting Meeting) (db : DB) (m : Meeting) : DB :=
  MeetingDatabase.upsert db (resultRecord proc m)

/-- The per-record loop of `MeetingPipeline.run`. -/
def runLoop (proc : Meeting → Except Meeting Meeting) (db : DB) :
    List Meeting → DB
  | [] => db
  | m :: rest => runLoop proc (runStep proc db m) rest

/-- Discovery insertion (`_phase_discovery` / the Legistar batch driver):
a record is added only when its id is not yet known. -/
def addIfNew (db : DB) (m : Meeting) : DB :=
  if (MeetingDatabase.get db m.id).isSome then db else MeetingDatabase.upsert db m

/-- `MeetingPipeline.run`: discovery insertion, then the per-record loop
over the currently unprocessed records of the requested jurisdictions. -/
def MeetingPipeline.run (fs : FS) (jloads : Str → Option PyVal) (w : World)
    (cities : List Str) (discovered : List Meeting) (db : DB) : DB :=
  let db1 := discovered.foldl addIfNew db
  let unprocessed :=
    (list_unprocessed db1).filter (fun m => cities.contains m.jurisdiction)
  runLoop (process_meeting fs jloads w) db1 unprocessed

-- ===========================================================================
-- Discovery constructors
-- ===========================================================================

/-- The `Meeting(...)` constructed by `discover_from_youtube` (lines
212-220).  The rounded duration is taken as an input value. -/
def mkYoutubeMeeting (jurisdiction title video_id date_str : Str) (dur : ℚ) :
    Meeting :=
  { id := video_id
  , jurisdiction := jurisdiction
  , title := title
  , date := date_str
  , video_url := "https://www.youtube.com/watch?v=".data ++ video_id
  , source := "youtube".data
  , duration_minutes := dur }

/-- `LegistarDiscovery._event_to_meeting` (the event's video URL is taken
as an input value; the scorer does not read it). -/
def event_to_meeting (client jurisdiction : Str) (e : LegistarEvent)
    (videoUrl : Str) (relevance : ℚ) : Meeting :=
  { id := "legistar_".data ++ client ++ "_".data ++ natToStr e.event_id
  , jurisdiction := jurisdiction
  , title := e.body_name ++ " – ".data ++ e.date
  , date := e.date
  , video_url := videoUrl
  , source := "legistar".data
  , housing_relevance_score := .num relevance }

-- ===========================================================================
-- The processed-record invariant
-- ===========================================================================

/-- Claimed invariant: a processed record has a non-empty analysis path
and an empty error tag. -/
def meetingInv (m : Meeting) : Prop :=
  m.processed = true → (m.analysis_path ≠ [] ∧ m.error = [])

/-- The invariant, store-wide. -/
def dbInv (db : DB) : Prop := ∀ m ∈ dbValues db, meetingInv m

-- ===========================================================================
-- Concrete fixtures for witnesses, counterexamples and the forced-failure
-- run of the spec's partial-failure property
-- ===========================================================================

/-- A freshly discovered record with the given id. -/
def mkM (idStr : Str) : Meeting :=
  { id := idStr
  , jurisdiction := "Denver".data
  , title := "City Council Meeting".data
  , date := "2024-01-01".data
  , video_url := "u".data
  , source := "youtube".data }

/-- A `json.loads` that fails on every input. -/
def jlNone : Str → Option PyVal := fun _ => none

/-- An empty filesystem. -/
def fsNone : FS := fun _ => none

/-- An event with two housing-relevant agenda items. -/
def evW1 : LegistarEvent :=
  { event_id := 7
  , body_name := "Planning Board".data
  , date := "2024-01-01".data
  , items :=
      [ { event_item_id := 1
        , title := "Rezoning of parcel for affordable housing".data
        , action_text := [], matter_name := "CB-1".data
        , matter_type := "bill".data, matter_status := [] } ] }

/-- An event with no agenda items whose body name mentions zoning. -/
def evW2 : LegistarEvent :=
  { event_id := 8, body_name := "Zoning Board of Adjustment".data
  , date := "2024-01-02".data, items := [] }

/-- An event with items whose combined text is blank. -/
def evW3 : LegistarEvent :=
  { event_id := 9, body_name := "City Council".data
  , date := "2024-01-03".data
  , items :=
      [ { event_item_id := 2, title := " ".data, action_text := []
        , matter_name := [], matter_type := [], matter_status := [] } ] }

/-- The meeting used by the caching counterexample and witness. -/
def mC2 : Meeting := mkM "vid1".data

/-- A filesystem on which the analysis artifact for `mC2` exists but does
not parse as JSON (every other artifact is absent). -/
def fsC2 : FS := fun p => if p = analysisPath mC2 then some "not json".data else none

/-- A filesystem holding every artifact for `mC2`, with the analysis
artifact's content the parseable `cached`. -/
def fsC2ok : FS := fun p =>
  if p = audioPath mC2 then some "AUDIO".data
  else if p = transcriptPath mC2 then some "TR".data
  else if p = analysisPath mC2 then some "cached".data
  else none

/-- A `json.loads` that parses exactly the content `cached`. -/
def jlC2 : Str → Option PyVal := fun s =>
  if s = "cached".data then some (.obj [("k".data, .num 1)]) else none

/-- A world with both keys configured and all external calls succeeding. -/
def wC2 : World :=
  { deepgramKey := "dg".data
  , anthropicKey := "an".data
  , downloadMiss := fun m => .ok (audioPath m)
  , transcribeMiss := fun _ => .ok true
  , formatT := fun _ => "affordable housing".data
  , claudeMiss := fun _ _ => .ok (some "hello".data) }

/-- A world identical to `wC2` but with the transcription key unset. -/
def wC2nokey : World := { wC2 with deepgramKey := [] }

/-- Three records of the forced-failure run. -/
def rec1 : Meeting := mkM "r1".data

/-- Second record: its acquisition is forced to fail. -/
def rec2 : Meeting := mkM "r2".data

/-- Third record. -/
def rec3 : Meeting := mkM "r3".data

/-- The Claude response text of the forced-failure run. -/
def respC3 : Str := "resp".data

/-- A `json.loads` parsing exactly the response of the forced-failure run. -/
def jlC3 : Str → Option PyVal := fun s =>
  if s = respC3 then some (.obj [("housing_relevance_score".data, .num 1)])
  else none

/-- The world of the forced-failure run: every stage succeeds except that
the audio download of record `r2` returns the empty path. -/
def wC3 : World :=
  { deepgramKey := "dg".data
  , anthropicKey := "an".data
  , downloadMiss := fun m => .ok (if m.id = "r2".data then [] else audioPath m)
  , transcribeMiss := fun _ => .ok true
  , formatT := fun _ => "affordable housing rezoning".data
  , claudeMiss := fun _ _ => .ok (some respC3) }

/-- The per-record processor of the forced-failure run. -/
def procC3 : Meeting → Except Meeting Meeting :=
  process_meeting fsNone jlC3 wC3

/-- The store after the forced-failure run over the three records. -/
def dbC3 : DB := runLoop procC3 [] [rec1, rec2, rec3]

/-- Transcript data whose utterance list is present but all-blank, while
the flat transcript is non-empty. -/
def dgBad : DGData :=
  { resUtterances := [{ speaker := some 0, transcript := "   ".data }]
  , topUtterances := [], paragraphs := [], transcript := "hello".data }

/-- Transcript data with one spoken utterance. -/
def dgUtt : DGData :=
  { resUtterances := [{ speaker := some 1, transcript := " hi all ".data }]
  , topUtterances := [], paragraphs := [], transcript := [] }

/-- Transcript data with only a paragraph tree. -/
def dgPara : DGData :=
  { resUtterances := [], topUtterances := []
  , paragraphs := [{ speaker := some 2, sentences := [{ text := "ok".data }] }]
  , transcript := [] }

/-- Transcript data with only a flat transcript. -/
def dgFlat : DGData :=
  { resUtterances := [], topUtterances := [], paragraphs := []
  , transcript := "flat text".data }

/-- A `json.loads` for the extraction witness: parses the fenced group and
the whole-text payload. -/
def jlC5 : Str → Option PyVal := fun s =>
  if s = "\x7b\x22summary\x22: \x22x\x22\x7d".data then
    some (.obj [("summary".data, .str "x".data)])
  else none

/-- A processor on which every record raises an unhandled exception with
the record unmutated (an abstract worst-case `_process_meeting`). -/
def procErr : Meeting → Except Meeting Meeting := fun m => .error m

-- ===========================================================================
-- Theorems
-- ===========================================================================

/-- C1: for every Legistar event, the housing relevance score satisfies:
with at least one agenda item and a non-blank combined text (lowercased
join of every item's title, matter name, action text, matter type), the
score is `min(1.0, k/5)` where `k` counts the entries of the (duplicate
free) `HOUSING_KEYWORDS` vocabulary occurring case-insensitively as
substrings — so `k ≥ 5` scores exactly `1.0` and `k ≤ 5` scores `k/5`;
with no agenda items the score is `0.3` when the lowercased body name
contains one of housing/planning/land use/zoning and `0.1` otherwise;
with items but blank combined text the score is `0.1`. -/
theorem score_housing_relevance_spec (e : LegistarEvent) :
    housingKeywords.Nodup ∧
    (e.items ≠ [] → stripStr (eventCombinedText e) ≠ [] →
      scoreHousingRelevance e =
        pymin 1 ((keywordMatchCount (eventCombinedText e) : ℚ) / 5)) ∧
    (e.items ≠ [] → stripStr (eventCombinedText e) ≠ [] →
      5 ≤ keywordMatchCount (eventCombinedText e) →
      scoreHousingRelevance e = 1) ∧
    (e.items ≠ [] → stripStr (eventCombinedText e) ≠ [] →
      keywordMatchCount (eventCombinedText e) ≤ 5 →
      scoreHousingRelevance e = (keywordMatchCount (eventCombinedText e) : ℚ) / 5) ∧
    (e.items = [] →
      housingBodyTerms.any (fun t => strHasSub t (lowerStr e.body_name)) = true →
      scoreHousingRelevance e = 3/10) ∧
    (e.items = [] →
      housingBodyTerms.any (fun t => strHasSub t (lowerStr e.body_name)) = false →
      scoreHousingRelevance e = 1/10) ∧
    (e.items ≠ [] → stripStr (eventCombinedText e) = [] →
      scoreHousingRelevance e = 1/10) := by
  refine ⟨by decide, ?_, ?_, ?_, ?_, ?_, ?_⟩
  · intro h1 h2
    simp [scoreHousingRelevance, h1, h2]
  · intro h1 h2 hk
    have h5 : (5 : ℚ) ≤ (keywordMatchCount (eventCombinedText e) : ℚ) := by
      exact_mod_cast hk
    have hdiv : (1 : ℚ) ≤ (keywordMatchCount (eventCombinedText e) : ℚ) / 5 := by
      rw [le_div_iff₀ (by norm_num : (0 : ℚ) < 5)]
      linarith
    simp [scoreHousingRelevance, h1, h2, pymin, hdiv]
  · intro h1 h2 hk
    have h5 : (keywordMatchCount (eventCombinedText e) : ℚ) ≤ 5 := by
      exact_mod_cast hk
    have hdiv : (keywordMatchCount (eventCombinedText e) : ℚ) / 5 ≤ 1 := by
      rw [div_le_one (by norm_num : (0 : ℚ) < 5)]
      linarith
    rcases le_or_lt 1 ((keywordMatchCount (eventCombinedText e) : ℚ) / 5) with h | h
    · have heq : (keywordMatchCount (eventCombinedText e) : ℚ) / 5 = 1 :=
        le_antisymm hdiv h
      simp [scoreHousingRelevance, h1, h2, pymin, h, heq]
    · have hn : ¬(1 : ℚ) ≤ (keywordMatchCount (eventCombinedText e) : ℚ) / 5 :=
        not_le.2 h
      simp [scoreHousingRelevance, h1, h2, pymin, hn]
  · intro h1 h2
    simp [scoreHousingRelevance, h1, h2]
  · intro h1 h2
    simp [scoreHousingRelevance, h1, h2]
  · intro h1 h2
    simp [scoreHousingRelevance, h1, h2]

/-- C1 witness: the scoring formula applied to a concrete event with items
(keyword-bearing, non-blank), a concrete item-free zoning body, and a
concrete event with blank item text. -/
theorem score_housing_relevance_spec_w :
    scoreHousingRelevance evW1 =
      pymin 1 ((keywordMatchCount (eventCombinedText evW1) : ℚ) / 5) ∧
    scoreHousingRelevance evW2 = 3/10 ∧
    scoreHousingRelevance evW3 = 1/10 :=
  ⟨(score_housing_relevance_spec evW1).2.1 (by decide) (by decide)
  , (score_housing_relevance_spec evW2).2.2.2.2.1 (by decide) (by decide)
  , (score_housing_relevance_spec evW3).2.2.2.2.2.2 (by decide) (by decide)⟩

-- ---------------------------------------------------------------------------
-- Store lemmas (shared)
-- ---------------------------------------------------------------------------

theorem alookup_setKey_self (db : DB) (k : Str) (m : Meeting) :
    alookup (setKey db k m) k = some m := by
  induction db with
  | nil => simp [setKey, alookup]
  | cons kv rest ih =>
    obtain ⟨k0, m0⟩ := kv
    by_cases h : k0 = k
    · rw [setKey, if_pos h, alookup, if_pos h]
    · rw [setKey, if_neg h, alookup, if_neg h]
      exact ih

theorem alookup_setKey_ne (db : DB) (k : Str) (m : Meeting) (k' : Str)
    (h : k' ≠ k) : alookup (setKey db k m) k' = alookup db k' := by
  have hks : ¬(k = k') := fun hh => h hh.symm
  induction db with
  | nil => simp [setKey, alookup, hks]
  | cons kv rest ih =>
    obtain ⟨k0, m0⟩ := kv
    by_cases h0 : k0 = k
    · have h0' : ¬(k0 = k') := fun hh => hks (h0 ▸ hh)
      rw [setKey, if_pos h0, alookup, if_neg h0', alookup, if_neg h0']
    · rw [setKey, if_neg h0, alookup, alookup]
      by_cases h1 : k0 = k'
      · rw [if_pos h1, if_pos h1]
      · rw [if_neg h1, if_neg h1]
        exact ih

theorem alookup_setKey_isSome (db : DB) (k : Str) (m : Meeting) (k' : Str)
    (h : (alookup db k').isSome = true) :
    (alookup (setKey db k m) k').isSome = true := by
  by_cases hk : k' = k
  · subst hk
    simp [alookup_setKey_self]
  · rwa [alookup_setKey_ne db k m k' hk]

theorem mem_keys_setKey (db : DB) (k : Str) (m : Meeting) (x : Str)
    (h : x ∈ (setKey db k m).map Prod.fst) :
    x ∈ db.map Prod.fst ∨ x = k := by
  induction db with
  | nil =>
    simp only [setKey, List.map_cons, List.map_nil, List.mem_cons,
      List.not_mem_nil, or_false] at h
    exact Or.inr h
  | cons kv rest ih =>
    obtain ⟨k0, m0⟩ := kv
    by_cases h0 : k0 = k
    · rw [setKey, if_pos h0] at h
      rw [List.map_cons, List.mem_cons] at h
      rw [List.map_cons, List.mem_cons]
      rcases h with h | h
      · exact Or.inl (Or.inl h)
      · exact Or.inl (Or.inr h)
    · rw [setKey, if_neg h0] at h
      rw [List.map_cons, List.mem_cons] at h
      rw [List.map_cons, List.mem_cons]
      rcases h with h | h
      · exact Or.inl (Or.inl h)
      · rcases ih h with h2 | h2
        · exact Or.inl (Or.inr h2)
        · exact Or.inr h2

theorem keysNodup_setKey (db : DB) (k : Str) (m : Meeting)
    (h : keysNodup db) : keysNodup (setKey db k m) := by
  induction db with
  | nil =>
    rw [keysNodup]
    simp only [setKey, List.map_cons, List.map_nil]
    exact List.nodup_singleton k
  | cons kv rest ih =>
    obtain ⟨k0, m0⟩ := kv
    rw [keysNodup, List.map_cons, List.nodup_cons] at h
    by_cases h0 : k0 = k
    · rw [keysNodup, setKey, if_pos h0, List.map_cons, List.nodup_cons]
      exact h
    · have hrest := ih h.2
      rw [keysNodup, setKey, if_neg h0, List.map_cons, List.nodup_cons]
      refine ⟨?_, hrest⟩
      intro hmem
      rcases mem_keys_setKey rest k m k0 hmem with hh | hh
      · exact h.1 hh
      · exact h0 hh

theorem countKey_eq_zero (db : DB) (k : Str)
    (h : k ∉ db.map Prod.fst) : countKey db k = 0 := by
  induction db with
  | nil => simp [countKey]
  | cons kv rest ih =>
    obtain ⟨k0, m0⟩ := kv
    simp only [List.map_cons, List.mem_cons, not_or] at h
    have hne : ¬(k0 = k) := fun hh => h.1 hh.symm
    simp only [countKey, List.filter_cons]
    rw [if_neg (by simpa using hne)]
    exact ih h.2

theorem countKey_setKey_self (db : DB) (k : Str) (m : Meeting)
    (h : keysNodup db) : countKey (setKey db k m) k = 1 := by
  induction db with
  | nil =>
    simp only [setKey, countKey, List.filter_cons]
    rw [if_pos (by simp)]
    simp
  | cons kv rest ih =>
    obtain ⟨k0, m0⟩ := kv
    rw [keysNodup, List.map_cons, List.nodup_cons] at h
    by_cases h0 : k0 = k
    · have hz : countKey rest k = 0 := countKey_eq_zero rest k (h0 ▸ h.1)
      simp only [countKey] at hz
      rw [setKey, if_pos h0]
      simp only [countKey, List.filter_cons]
      rw [if_pos (by simpa using h0)]
      simp only [List.length_cons, hz]
    · have hrest := ih h.2
      rw [setKey, if_neg h0]
      simp only [countKey, List.filter_cons]
      rw [if_neg (by simpa using h0)]
      exact hrest

theorem setKey_length_of_mem (db : DB) (k : Str) (m : Meeting)
    (h : (alookup db k).isSome = true) :
    (setKey db k m).length = db.length := by
  induction db with
  | nil => simp [alookup] at h
  | cons kv rest ih =>
    obtain ⟨k0, m0⟩ := kv
    by_cases h0 : k0 = k
    · rw [setKey, if_pos h0]
      simp
    · rw [alookup, if_neg h0] at h
      rw [setKey, if_neg h0]
      simp [ih h]

/-- C9: upserting two records with the same id (in particular, the same
record twice) leaves exactly one entry under that id, holding the second
record; on a key-unique store upsert preserves key uniqueness and never
creates a duplicate entry for an already-known id. -/
theorem upsert_idempotent_overwrite (db : DB) (r1 r2 : Meeting)
    (hid : r1.id = r2.id) (hnd : keysNodup db) :
    MeetingDatabase.get
        (MeetingDatabase.upsert (MeetingDatabase.upsert db r1) r2) r2.id =
      some r2 ∧
    countKey (MeetingDatabase.upsert (MeetingDatabase.upsert db r1) r2) r2.id = 1 ∧
    keysNodup (MeetingDatabase.upsert db r1) ∧
    (∀ m : Meeting, (MeetingDatabase.get db m.id).isSome = true →
      (MeetingDatabase.upsert db m).length = db.length) := by
  refine ⟨?_, ?_, ?_, ?_⟩
  · exact alookup_setKey_self _ r2.id r2
  · exact countKey_setKey_self _ r2.id r2 (keysNodup_setKey db r1.id r1 hnd)
  · exact keysNodup_setKey db r1.id r1 hnd
  · intro m hm
    exact setKey_length_of_mem db m.id m hm

/-- C9 witness: upserting a record and then an updated record with the
same id into the empty store. -/
theorem upsert_idempotent_overwrite_w :
    MeetingDatabase.get
        (MeetingDatabase.upsert
          (MeetingDatabase.upsert [] (mkM "a".data))
          { mkM "a".data with title := "T2".data })
        ({ mkM "a".data with title := "T2".data }).id =
      some { mkM "a".data with title := "T2".data } ∧
    countKey
        (MeetingDatabase.upsert
          (MeetingDatabase.upsert [] (mkM "a".data))
          { mkM "a".data with title := "T2".data })
        ({ mkM "a".data with title := "T2".data }).id = 1 ∧
    keysNodup (MeetingDatabase.upsert [] (mkM "a".data)) ∧
    (∀ m : Meeting, (MeetingDatabase.get ([] : DB) m.id).isSome = true →
      (MeetingDatabase.upsert ([] : DB) m).length = ([] : DB).length) :=
  upsert_idempotent_overwrite [] (mkM "a".data)
    { mkM "a".data with title := "T2".data } rfl (by simp [keysNodup])

/-- C10: record serialization round-trips — `from_dict (to_dict m)`
rebuilds exactly `m` (in its dynamic view), and `from_dict` silently
ignores unknown keys, so any dictionary extending `to_dict m` with extra
(unknown) keys still reconstructs exactly `m`. -/
theorem meeting_roundtrip (m : Meeting) (extra : List (Str × PyVal))
    (hx : ∀ p ∈ extra, knownFields.contains p.1 = false) :
    Meeting.from_dict (.obj (Meeting.to_dict m)) = .ok m.py ∧
    Meeting.from_dict (.obj (Meeting.to_dict m ++ extra)) = .ok m.py := by
  have hbase : Meeting.from_dict (.obj (Meeting.to_dict m)) = .ok m.py := rfl
  refine ⟨hbase, ?_⟩
  have hextra : extra.filter (fun kv => knownFields.contains kv.1) = [] := by
    rw [List.filter_eq_nil_iff]
    intro p hp
    simp only [hx p hp]
    exact Bool.false_ne_true
  have hfilter : filterKnown (Meeting.to_dict m ++ extra) =
      filterKnown (Meeting.to_dict m) := by
    rw [filterKnown, List.filter_append]
    rw [filterKnown]
    rw [hextra, List.append_nil]
  show buildMeeting (filterKnown (Meeting.to_dict m ++ extra)) = .ok m.py
  rw [hfilter]
  exact hbase

/-- C10 witness: the round-trip on a concrete record extended with a
concrete unknown key. -/
theorem meeting_roundtrip_w :
    Meeting.from_dict (.obj (Meeting.to_dict (mkM "a".data))) =
      .ok (mkM "a".data).py ∧
    Meeting.from_dict
        (.obj (Meeting.to_dict (mkM "a".data) ++ [("schema_version".data, .num 2)])) =
      .ok (mkM "a".data).py :=
  meeting_roundtrip (mkM "a".data) [("schema_version".data, .num 2)]
    (by intro p hp; simp at hp; simp [hp]; decide)

/-- C4 counterexample: a store file whose content is *valid* JSON but not
the expected record mapping — the JSON array `[1, 2, 3]` — makes
`_load` raise (`raw.items()` → `AttributeError`, which is not among the
caught exception classes), contradicting the claim that any content not
decoding to the record mapping yields an empty store without exception.
A mapping whose values are not record objects likewise raises. -/
theorem load_corrupt_store_counterexample :
    MeetingDatabase.load (.json (.arr [.num 1, .num 2, .num 3])) =
      .error .attributeError ∧
    MeetingDatabase.load (.json (.obj [("x".data, .obj [])])) =
      .error .typeError ∧
    (Except.error .attributeError ≠
      (.ok [] : Except PyErr (List (Str × MeetingPy)))) :=
  ⟨rfl, rfl, by simp⟩

/-- C4 amended: for a store file that is missing or whose content is not
*valid JSON*, constructing the record store raises no exception — it
(logs a warning and) yields an empty in-memory store.  (Valid JSON of the
wrong shape may instead raise `AttributeError`/`TypeError`.) -/
theorem load_corrupt_store_amended :
    MeetingDatabase.load .absent = .ok [] ∧
    MeetingDatabase.load .notJson = .ok [] :=
  ⟨rfl, rfl⟩

/-- C5: JSON extraction tries the three strategies in order — fenced code
block, whole text, outermost brace span — returning the first successful
parse; when none parses it returns the falsy empty dict, which the
analysis stage replaces by the marker object carrying the raw response
text and a parse-failure flag.  The extraction function is total (the
model of "never raises"). -/
theorem extract_json_strategies (jloads : Str → Option PyVal) (text : Str) :
    (∀ g v, searchFence text = some g → jloads g = some v →
      HousingAnalyzer.extract_json jloads text = v) ∧
    (∀ v, (searchFence text).bind jloads = none → jloads text = some v →
      HousingAnalyzer.extract_json jloads text = v) ∧
    (∀ g v, (searchFence text).bind jloads = none → jloads text = none →
      braceSearch text = some g → jloads g = some v →
      HousingAnalyzer.extract_json jloads text = v) ∧
    ((searchFence text).bind jloads = none → jloads text = none →
      (braceSearch text).bind jloads = none →
      HousingAnalyzer.extract_json jloads text = .obj []) ∧
    (∀ (fs : FS) (w : World) (ttext : Str) (m : Meeting) (raw : Str),
      w.anthropicKey ≠ [] →
      (fs (analysisPath m)).bind jloads = none →
      w.claudeMiss ttext m = .ok (some raw) →
      pyTruthy (HousingAnalyzer.extract_json jloads raw) = false →
      analyzeStage fs jloads w ttext m = .ok (markerObj raw, [.http])) := by
  refine ⟨?_, ?_, ?_, ?_, ?_⟩
  · intro g v hg hv
    rw [HousingAnalyzer.extract_json, hg]
    simp [hv]
  · intro v h1 hv
    rw [HousingAnalyzer.extract_json, h1, hv]
  · intro g v h1 h2 hg hv
    rw [HousingAnalyzer.extract_json, h1, h2, hg]
    simp [hv]
  · intro h1 h2 h3
    rw [HousingAnalyzer.extract_json, h1, h2, h3]
  · intro fs w ttext m raw hkey hc hreq hfalsy
    rw [analyzeStage, if_neg hkey, hc, hreq]
    simp [hfalsy]

/-- C5 witness: the strategies on concrete inputs — a fenced response, a
bare-JSON response, and an unparseable response driven through the
analysis stage to the marker object. -/
theorem extract_json_strategies_w :
    HousingAnalyzer.extract_json jlC5
        "Sure!\n```json\n\x7b\x22summary\x22: \x22x\x22\x7d\n```\nBye".data =
      .obj [("summary".data, .str "x".data)] ∧
    HousingAnalyzer.extract_json jlC5 "\x7b\x22summary\x22: \x22x\x22\x7d".data =
      .obj [("summary".data, .str "x".data)] ∧
    HousingAnalyzer.extract_json jlNone "whatever".data = .obj [] ∧
    analyzeStage fsNone jlNone wC2 "t".data mC2 =
      .ok (markerObj "hello".data, [.http]) :=
  ⟨(extract_json_strategies jlC5
      "Sure!\n```json\n\x7b\x22summary\x22: \x22x\x22\x7d\n```\nBye".data).1
      "\x7b\x22summary\x22: \x22x\x22\x7d".data _ rfl rfl
  , (extract_json_strategies jlC5 "\x7b\x22summary\x22: \x22x\x22\x7d".data).2.1
      _ rfl rfl
  , (extract_json_strategies jlNone "whatever".data).2.2.2.1 rfl rfl rfl
  , (extract_json_strategies jlNone "t".data).2.2.2.2 fsNone wC2 "t".data mC2
      "hello".data (by simp [wC2]) rfl rfl rfl⟩

/-- C6 counterexample: a response whose utterance list is present but
consists only of blank text formats to the *empty* string even though the
lower-fidelity flat transcript is non-empty — the normalizer selects the
first *present* shape, not the first shape with a non-empty formatted
result, so the claimed "returns the first non-empty result" fails. -/
theorem format_transcript_counterexample :
    TranscriptionService.format_transcript (some dgBad) = [] ∧
    dgBad.transcript = "hello".data ∧
    "hello".data ≠ ([] : Str) :=
  ⟨rfl, rfl, by simp⟩

/-- C6 amended: the normalizer tries the three response shapes in order of
decreasing fidelity and returns the formatted result of the first shape
that is *present* (non-empty utterance list, else non-empty paragraph
list, else the flat transcript string); the formatted result of the
selected shape may be empty even when a lower-fidelity shape would yield
non-empty text. -/
theorem format_transcript_amended (d : DGData) :
    (effUtterances d ≠ [] →
      TranscriptionService.format_transcript (some d) =
        joinSep "\n\n".data ((effUtterances d).filterMap uttLine)) ∧
    (effUtterances d = [] → d.paragraphs ≠ [] →
      TranscriptionService.format_transcript (some d) =
        joinSep "\n\n".data (d.paragraphs.filterMap paraLine)) ∧
    (effUtterances d = [] → d.paragraphs = [] →
      TranscriptionService.format_transcript (some d) = d.transcript) := by
  refine ⟨?_, ?_, ?_⟩
  · intro h
    rw [TranscriptionService.format_transcript, formatDG]
    simp [h]
  · intro h1 h2
    rw [TranscriptionService.format_transcript, formatDG]
    simp [h1, h2]
  · intro h1 h2
    rw [TranscriptionService.format_transcript, formatDG]
    simp [h1, h2]

/-- C6 witness: the amended selection applied to concrete documents of
each of the three shapes. -/
theorem format_transcript_amended_w :
    TranscriptionService.format_transcript (some dgUtt) =
      joinSep "\n\n".data ((effUtterances dgUtt).filterMap uttLine) ∧
    TranscriptionService.format_transcript (some dgPara) =
      joinSep "\n\n".data (dgPara.paragraphs.filterMap paraLine) ∧
    TranscriptionService.format_transcript (some dgFlat) = dgFlat.transcript :=
  ⟨(format_transcript_amended dgUtt).1 (by simp [dgUtt, effUtterances])
  , (format_transcript_amended dgPara).2.1 (by simp [dgPara, effUtterances])
      (by simp [dgPara])
  , (format_transcript_amended dgFlat).2.2 (by simp [dgFlat, effUtterances])
      (by simp [dgFlat])⟩

/-- A formatted title date always contains a dash, so it is never an
8-digit all-numeric string. -/
theorem fmtDate_not_digits (y mo d : Nat) :
    (fmtDate y mo d).all isDigitCh = false := by
  by_contra hcon
  have hall : (fmtDate y mo d).all isDigitCh = true := by
    cases hx : (fmtDate y mo d).all isDigitCh
    · exact absurd hx hcon
    · rfl
  have hd : '-' ∈ "-".data := by decide
  have hmem : '-' ∈ fmtDate y mo d := by
    rw [fmtDate]
    exact List.mem_append_left _ (List.mem_append_right _ hd)
  have := List.all_eq_true.1 hall '-' hmem
  exact absurd this (by decide)

theorem tryFmt_shape (r : Option (Str × Str × Str)) (s : Str)
    (h : tryFmt r = some s) : ∃ y mo d, s = fmtDate y mo d := by
  rcases r with _ | g
  · simp [tryFmt] at h
  · obtain ⟨mo, d, y⟩ := g
    by_cases h0 : monthNum mo = 0
    · simp [tryFmt, h0] at h
    · simp only [tryFmt, Option.some_bind] at h
      rw [if_neg h0] at h
      exact ⟨natOfDigits y, monthNum mo, natOfDigits d, (Option.some.inj h).symm⟩

theorem extractDate_shape (t : Str) (h : extractDate t ≠ []) :
    ∃ y mo d, extractDate t = fmtDate y mo d := by
  rw [extractDate] at h ⊢
  rcases h1 : tryFmt (searchPat p1At t) with _ | s
  · rw [h1] at h
    rcases h2 : tryFmt (searchPat p2At t) with _ | s
    · rw [h2] at h
      rcases h3 : tryFmt (searchPat p3At t) with _ | s
      · rw [h3] at h
        exact absurd rfl h
      · obtain ⟨y, mo, d, hs⟩ := tryFmt_shape _ s h3
        exact ⟨y, mo, d, hs⟩
    · obtain ⟨y, mo, d, hs⟩ := tryFmt_shape _ s h2
      exact ⟨y, mo, d, hs⟩
  · obtain ⟨y, mo, d, hs⟩ := tryFmt_shape _ s h1
    exact ⟨y, mo, d, hs⟩

/-- C7 amended: the three pattern families are applied in order against
the title, the first match whose month parses determining the result;
with no title date, the upload date is used *verbatim* unless it is an
8-digit all-numeric string, which is reformatted to ISO (so the result is
empty exactly when both the title yields nothing and the upload date is
empty); the three concrete examples of the spec hold. -/
theorem extract_date_precedence :
    (∀ t s, tryFmt (searchPat p1At t) = some s → extractDate t = s) ∧
    (∀ t s, tryFmt (searchPat p1At t) = none →
      tryFmt (searchPat p2At t) = some s → extractDate t = s) ∧
    (∀ t s, tryFmt (searchPat p1At t) = none →
      tryFmt (searchPat p2At t) = none →
      tryFmt (searchPat p3At t) = some s → extractDate t = s) ∧
    (∀ t, tryFmt (searchPat p1At t) = none →
      tryFmt (searchPat p2At t) = none →
      tryFmt (searchPat p3At t) = none → extractDate t = []) ∧
    (∀ title upload, extractDate title ≠ [] →
      deriveDate title upload = extractDate title) ∧
    (∀ title upload, extractDate title = [] →
      upload.length = 8 ∧ upload.all isDigitCh = true →
      deriveDate title upload = reformatUpload upload) ∧
    (∀ title upload, extractDate title = [] →
      ¬(upload.length = 8 ∧ upload.all isDigitCh = true) →
      deriveDate title upload = upload) ∧
    deriveDate "Housing Committee Meeting - March 3, 2024".data [] =
      "2024-03-03".data ∧
    deriveDate "Council Mtg 2024-03-03 Part 2".data [] = "2024-03-03".data ∧
    deriveDate "Council Meeting Highlights".data "20240303".data =
      "2024-03-03".data := by
  refine ⟨?_, ?_, ?_, ?_, ?_, ?_, ?_, by decide, by decide, by decide⟩
  · intro t s h
    rw [extractDate, h]
  · intro t s h1 h2
    rw [extractDate, h1, h2]
  · intro t s h1 h2 h3
    rw [extractDate, h1, h2, h3]
  · intro t h1 h2 h3
    rw [extractDate, h1, h2, h3]
  · intro title upload h
    obtain ⟨y, mo, d, heq⟩ := extractDate_shape title h
    have hall : (extractDate title).all isDigitCh = false := by
      rw [heq]
      exact fmtDate_not_digits y mo d
    rw [deriveDate]
    simp only [if_neg h, hall, Bool.and_false, Bool.false_eq_true, if_false]
  · intro title upload h h8
    rw [deriveDate]
    simp only [h, if_pos rfl]
    simp [h8.1, h8.2]
  · intro title upload h hn
    rw [deriveDate]
    simp only [h, if_pos rfl]
    cases hb : ((decide (upload.length = 8)) && upload.all isDigitCh) with
    | false => simp [hb]
    | true =>
      rw [Bool.and_eq_true] at hb
      exact absurd ⟨of_decide_eq_true hb.1, hb.2⟩ hn

/-- C7 counterexample: with a title yielding no date and the (tool
provided) upload date `"abc"` — not an 8-digit numeric string — the
derived date is `"abc"`, not the empty string required by the claim's
"if both fail, the date is the empty string". -/
theorem extract_date_counterexample :
    deriveDate "Council Meeting Highlights".data "abc".data = "abc".data ∧
    "abc".data ≠ ([] : Str) ∧
    extractDate "Council Meeting Highlights".data = [] :=
  ⟨by decide, by decide, by decide⟩

/-- C7 witness: the fallback clauses applied at concrete inputs. -/
theorem extract_date_precedence_w :
    deriveDate "Budget Hearing March 3, 2024".data "x".data =
      extractDate "Budget Hearing March 3, 2024".data ∧
    deriveDate "Budget Hearing".data "20240101".data =
      reformatUpload "20240101".data ∧
    deriveDate "Budget Hearing".data "2024".data = "2024".data ∧
    extractDate "Budget Hearing".data = [] :=
  ⟨extract_date_precedence.2.2.2.2.1
      "Budget Hearing March 3, 2024".data "x".data (by decide)
  , extract_date_precedence.2.2.2.2.2.1
      "Budget Hearing".data "20240101".data (by decide) ⟨by decide, by decide⟩
  , extract_date_precedence.2.2.2.2.2.2.1
      "Budget Hearing".data "2024".data (by decide) (by decide)
  , extract_date_precedence.2.2.2.1 "Budget Hearing".data
      (by decide) (by decide) (by decide)⟩

/-- C2 counterexample: (a) the analysis stage performs an HTTP call even
though its artifact path exists on disk, when the cached artifact fails
to parse as JSON; (b) the transcription stage with an unset API key
returns the empty string — not the existing artifact path — although the
artifact exists.  So "artifact exists → no external call and the existing
path is returned" fails as stated. -/
theorem cache_by_existence_counterexample :
    (fsC2 (analysisPath mC2)).isSome = true ∧
    analyzeStage fsC2 jlNone wC2 "t".data mC2 =
      .ok (markerObj "hello".data, [.http]) ∧
    ([ExtCall.http] ≠ ([] : List ExtCall)) ∧
    (fsC2ok (transcriptPath mC2)).isSome = true ∧
    transcribeStage fsC2ok wC2nokey mC2 = .ok ([], []) ∧
    ([] : Str) ≠ transcriptPath mC2 :=
  ⟨rfl, rfl, by simp, rfl, rfl, by decide⟩

/-- C2 amended: cache-by-existence holds stage-by-stage with the provisos
the code imposes — unconditionally for audio acquisition; for
transcription provided the API key is configured; for analysis provided
the API key is configured *and* the cached artifact parses as JSON (the
stage then returns the parsed cached content, performing no external
call; an existing-but-unparseable artifact is re-analyzed). -/
theorem cache_by_existence_amended :
    (∀ (fs : FS) (w : World) (m : Meeting), (fs (audioPath m)).isSome = true →
      downloadAudioStage fs w m = .ok (audioPath m, [])) ∧
    (∀ (fs : FS) (w : World) (m : Meeting), w.deepgramKey ≠ [] →
      (fs (transcriptPath m)).isSome = true →
      transcribeStage fs w m = .ok (transcriptPath m, [])) ∧
    (∀ (fs : FS) (jloads : Str → Option PyVal) (w : World) (ttext : Str)
        (m : Meeting) (v : PyVal), w.anthropicKey ≠ [] →
      (fs (analysisPath m)).bind jloads = some v →
      analyzeStage fs jloads w ttext m = .ok (v, [])) := by
  refine ⟨?_, ?_, ?_⟩
  · intro fs w m h
    rw [downloadAudioStage, if_pos h]
  · intro fs w m hk h
    rw [transcribeStage, if_neg hk, if_pos h]
  · intro fs jloads w ttext m v hk h
    rw [analyzeStage, if_neg hk, h]

/-- C2 witness: the three cached stages on a filesystem holding every
artifact for a concrete record. -/
theorem cache_by_existence_amended_w :
    downloadAudioStage fsC2ok wC2 mC2 = .ok (audioPath mC2, []) ∧
    transcribeStage fsC2ok wC2 mC2 = .ok (transcriptPath mC2, []) ∧
    analyzeStage fsC2ok jlC2 wC2 "t".data mC2 =
      .ok (.obj [("k".data, .num 1)], []) :=
  ⟨cache_by_existence_amended.1 fsC2ok wC2 mC2 rfl
  , cache_by_existence_amended.2.1 fsC2ok wC2 mC2 (by decide) rfl
  , cache_by_existence_amended.2.2 fsC2ok jlC2 wC2 "t".data mC2
      (.obj [("k".data, .num 1)]) (by decide) rfl⟩

-- ---------------------------------------------------------------------------
-- Run-loop lemmas (shared)
-- ---------------------------------------------------------------------------

theorem runLoop_append (proc : Meeting → Except Meeting Meeting) (xs ys : List Meeting) :
    ∀ db : DB, runLoop proc db (xs ++ ys) = runLoop proc (runLoop proc db xs) ys := by
  induction xs with
  | nil => intro db; rfl
  | cons a rest ih =>
    intro db
    rw [List.cons_append, runLoop, runLoop]
    exact ih (runStep proc db a)

theorem runLoop_get_isSome_mono (proc : Meeting → Except Meeting Meeting)
    (ms : List Meeting) (k : Str) :
    ∀ db : DB, (MeetingDatabase.get db k).isSome = true →
      (MeetingDatabase.get (runLoop proc db ms) k).isSome = true := by
  induction ms with
  | nil => intro db h; exact h
  | cons a rest ih =>
    intro db h
    rw [runLoop]
    exact ih _ (alookup_setKey_isSome db _ _ k h)

theorem runLoop_get_of_not_mem (proc : Meeting → Except Meeting Meeting)
    (ms : List Meeting) (k : Str)
    (hid : ∀ x, (resultRecord proc x).id = x.id)
    (hnot : k ∉ ms.map Meeting.id) :
    ∀ db : DB, MeetingDatabase.get (runLoop proc db ms) k =
      MeetingDatabase.get db k := by
  induction ms with
  | nil => intro db; rfl
  | cons a rest ih =>
    intro db
    rw [List.map_cons, List.mem_cons, not_or] at hnot
    rw [runLoop, ih hnot.2]
    rw [runStep, MeetingDatabase.upsert, MeetingDatabase.get,
      alookup_setKey_ne _ _ _ k (by rw [hid a]; exact hnot.1)]
    rfl

theorem runLoop_get_mem_isSome (proc : Meeting → Except Meeting Meeting)
    (ms : List Meeting) (m : Meeting)
    (hid : ∀ x, (resultRecord proc x).id = x.id) (hm : m ∈ ms) :
    ∀ db : DB, (MeetingDatabase.get (runLoop proc db ms) m.id).isSome = true := by
  induction ms with
  | nil => exact absurd hm (List.not_mem_nil m)
  | cons a rest ih =>
    intro db
    rcases List.mem_cons.1 hm with h | h
    · rw [runLoop]
      apply runLoop_get_isSome_mono
      rw [runStep, MeetingDatabase.upsert, MeetingDatabase.get, h, ← hid a,
        alookup_setKey_self]
      rfl
    · rw [runLoop]
      exact ih h _

/-- C3: one record's failure never aborts the batch — the loop continues
past any record; every iterated record ends with an entry in the store;
a record on which the processor raises is persisted with its error field
set to `unexpected_error` (records after it still being processed); and
in the concrete forced-failure run (second record's download fails) all
three records are stored, the first and third `processed = true`, the
second `processed = false` with `error = "download_failed"`. -/
theorem run_record_failure_isolation :
    (∀ (proc : Meeting → Except Meeting Meeting) (db : DB)
        (pre post : List Meeting) (m : Meeting),
      runLoop proc db (pre ++ m :: post) =
        runLoop proc (runStep proc (runLoop proc db pre) m) post) ∧
    (∀ (proc : Meeting → Except Meeting Meeting) (db : DB)
        (ms : List Meeting) (m : Meeting),
      (∀ x, (resultRecord proc x).id = x.id) → m ∈ ms →
      (MeetingDatabase.get (runLoop proc db ms) m.id).isSome = true) ∧
    (∀ (proc : Meeting → Except Meeting Meeting) (db : DB)
        (pre post : List Meeting) (m me : Meeting),
      (∀ x, (resultRecord proc x).id = x.id) →
      m.id ∉ post.map Meeting.id → proc m = .error me →
      MeetingDatabase.get (runLoop proc db (pre ++ m :: post)) m.id =
        some { me with error := "unexpected_error".data }) ∧
    ((MeetingDatabase.get dbC3 "r1".data).map Meeting.processed = some true ∧
     (MeetingDatabase.get dbC3 "r3".data).map Meeting.processed = some true ∧
     (MeetingDatabase.get dbC3 "r2".data).map Meeting.processed = some false ∧
     (MeetingDatabase.get dbC3 "r2".data).map Meeting.error =
       some "download_failed".data ∧
     (MeetingDatabase.get dbC3 "r1".data).isSome = true ∧
     (MeetingDatabase.get dbC3 "r2".data).isSome = true ∧
     (MeetingDatabase.get dbC3 "r3".data).isSome = true) := by
  refine ⟨?_, ?_, ?_, rfl, rfl, rfl, rfl, rfl, rfl, rfl⟩
  · intro proc db pre post m
    rw [runLoop_append]
    rfl
  · intro proc db ms m hid hm
    exact runLoop_get_mem_isSome proc ms m hid hm db
  · intro proc db pre post m me hid hnot hproc
    rw [runLoop_append]
    rw [show runLoop proc (runLoop proc db pre) (m :: post) =
          runLoop proc (runStep proc (runLoop proc db pre) m) post from rfl]
    rw [runLoop_get_of_not_mem proc post m.id hid hnot]
    have hr : resultRecord proc m = { me with error := "unexpected_error".data } := by
      rw [resultRecord, hproc]
    rw [runStep, MeetingDatabase.upsert, MeetingDatabase.get, ← hid m,
      alookup_setKey_self, hr]

/-- C3 witness: the per-record boundary applied to a processor that raises
on the (single) record, and batch persistence on the forced-failure run. -/
theorem run_record_failure_isolation_w :
    MeetingDatabase.get (runLoop procErr [] ([] ++ rec1 :: [])) rec1.id =
      some { rec1 with error := "unexpected_error".data } ∧
    (MeetingDatabase.get (runLoop procErr [] [rec1, rec2]) rec2.id).isSome = true :=
  ⟨run_record_failure_isolation.2.2.1 procErr [] [] [] rec1 rec1
      (fun _ => rfl) (by simp) rfl
  , run_record_failure_isolation.2.1 procErr [] [rec1, rec2] rec2
      (fun _ => rfl) (by simp)⟩

-- ---------------------------------------------------------------------------
-- Invariant lemmas (shared)
-- ---------------------------------------------------------------------------

theorem analysisPath_ne_nil (m : Meeting) : analysisPath m ≠ [] := by
  rw [analysisPath]
  show ('m' :: ("eetings_data/analysis/".data ++ m.id ++ "_analysis.json".data)) ≠ []
  exact List.cons_ne_nil _ _

theorem process_meeting_error_processed (fs : FS) (jloads : Str → Option PyVal)
    (w : World) (m me : Meeting)
    (hp : process_meeting fs jloads w m = .error me) :
    me.processed = m.processed := by
  rw [process_meeting] at hp
  repeat' (first | split at hp | dsimp only [] at hp)
  all_goals
    first
      | exact Except.noConfusion hp
      | (injection hp with h
         subst h
         rfl)

theorem process_meeting_ok_inv (fs : FS) (jloads : Str → Option PyVal)
    (w : World) (m m2 : Meeting) (hm : m.processed = false)
    (hp : process_meeting fs jloads w m = .ok m2) : meetingInv m2 := by
  rw [process_meeting] at hp
  repeat' (first | split at hp | dsimp only [] at hp)
  all_goals
    first
      | exact Except.noConfusion hp
      | (injection hp with h
         subst h
         intro hh
         first
           | exact ⟨analysisPath_ne_nil _, rfl⟩
           | (have hh2 : m.processed = true := hh
              rw [hm] at hh2
              exact Bool.noConfusion hh2))

theorem process_result_inv (fs : FS) (jloads : Str → Option PyVal) (w : World)
    (m : Meeting) (hm : m.processed = false) :
    meetingInv (resultRecord (process_meeting fs jloads w) m) := by
  rw [resultRecord]
  rcases hp : process_meeting fs jloads w m with me | m2
  · intro hh
    have hpe := process_meeting_error_processed fs jloads w m me hp
    have hh2 : me.processed = true := hh
    rw [hpe, hm] at hh2
    exact Bool.noConfusion hh2
  · exact process_meeting_ok_inv fs jloads w m m2 hm hp

theorem mem_values_setKey (db : DB) (k : Str) (m : Meeting) (x : Meeting)
    (h : x ∈ dbValues (setKey db k m)) : x = m ∨ x ∈ dbValues db := by
  induction db with
  | nil =>
    simp only [setKey, dbValues, List.map_cons, List.map_nil, List.mem_cons,
      List.not_mem_nil, or_false] at h
    exact Or.inl h
  | cons kv rest ih =>
    obtain ⟨k0, m0⟩ := kv
    by_cases h0 : k0 = k
    · rw [setKey, if_pos h0] at h
      rw [dbValues, List.map_cons, List.mem_cons] at h
      rcases h with h | h
      · exact Or.inl h
      · exact Or.inr (by rw [dbValues, List.map_cons, List.mem_cons]; exact Or.inr h)
    · rw [setKey, if_neg h0] at h
      rw [dbValues, List.map_cons, List.mem_cons] at h
      rcases h with h | h
      · exact Or.inr (by rw [dbValues, List.map_cons, List.mem_cons]; exact Or.inl h)
      · rcases ih h with h2 | h2
        · exact Or.inl h2
        · exact Or.inr (by rw [dbValues, List.map_cons, List.mem_cons]; exact Or.inr h2)

theorem dbInv_upsert (db : DB) (m : Meeting) (h : dbInv db)
    (hm : meetingInv m) : dbInv (MeetingDatabase.upsert db m) := by
  intro x hx
  rcases mem_values_setKey db m.id m x hx with h2 | h2
  · rw [h2]; exact hm
  · exact h x h2

theorem dbInv_addIfNew (db : DB) (m : Meeting) (h : dbInv db)
    (hm : meetingInv m) : dbInv (addIfNew db m) := by
  rw [addIfNew]
  split
  · exact h
  · exact dbInv_upsert db m h hm

theorem dbInv_discovery (discovered : List Meeting)
    (hd : ∀ m ∈ discovered, meetingInv m) :
    ∀ db : DB, dbInv db → dbInv (discovered.foldl addIfNew db) := by
  induction discovered with
  | nil => intro db h; exact h
  | cons a rest ih =>
    intro db h
    rw [List.foldl_cons]
    exact ih (fun m hm => hd m (List.mem_cons_of_mem a hm)) _
      (dbInv_addIfNew db a h (hd a (List.mem_cons_self a rest)))

theorem list_unprocessed_false (db : DB) (m : Meeting)
    (h : m ∈ list_unprocessed db) : m.processed = false := by
  rw [list_unprocessed] at h
  have := (List.mem_filter.1 h).2
  simpa using this

theorem runLoop_inv (fs : FS) (jloads : Str → Option PyVal) (w : World)
    (ms : List Meeting) (hms : ∀ m ∈ ms, m.processed = false) :
    ∀ db : DB, dbInv db →
      dbInv (runLoop (process_meeting fs jloads w) db ms) := by
  induction ms with
  | nil => intro db h; exact h
  | cons a rest ih =>
    intro db h
    rw [runLoop]
    refine ih (fun m hm => hms m (List.mem_cons_of_mem a hm)) _ ?_
    rw [runStep]
    exact dbInv_upsert _ _ h
      (process_result_inv fs jloads w a (hms a (List.mem_cons_self a rest)))

/-- C8: every reachable record state satisfies the invariant
`processed = true → analysis_path ≠ "" ∧ error = ""`: discovery
constructors (channel and Legistar adapters) create unprocessed records;
one pipeline iteration starting from an unprocessed record yields an
invariant-satisfying record on every path (the record is marked processed
only in the same transition that sets its analysis path and clears its
error); and a full run (discovery insertion plus the loop over
unprocessed records) preserves the invariant store-wide. -/
theorem processed_implies_analyzed_invariant :
    (∀ jurisdiction title vid date_str dur,
      meetingInv (mkYoutubeMeeting jurisdiction title vid date_str dur)) ∧
    (∀ client jurisdiction e vurl rel,
      meetingInv (event_to_meeting client jurisdiction e vurl rel)) ∧
    (∀ (fs : FS) (jloads : Str → Option PyVal) (w : World) (m : Meeting),
      m.processed = false →
      meetingInv (resultRecord (process_meeting fs jloads w) m)) ∧
    (∀ (fs : FS) (jloads : Str → Option PyVal) (w : World) (cities : List Str)
        (discovered : List Meeting) (db : DB),
      dbInv db → (∀ m ∈ discovered, meetingInv m) →
      dbInv (MeetingPipeline.run fs jloads w cities discovered db)) := by
  refine ⟨?_, ?_, ?_, ?_⟩
  · intro jurisdiction title vid date_str dur hh
    simp [mkYoutubeMeeting] at hh
  · intro client jurisdiction e vurl rel hh
    simp [event_to_meeting] at hh
  · exact process_result_inv
  · intro fs jloads w cities discovered db h hd
    rw [MeetingPipeline.run]
    refine runLoop_inv fs jloads w _ ?_ _ (dbInv_discovery discovered hd db h)
    intro m hm
    exact list_unprocessed_false _ m (List.mem_filter.1 hm).1

/-- C8 witness: the invariant on the record produced by one concrete
pipeline iteration, and store-wide after a concrete full run. -/
theorem processed_implies_analyzed_invariant_w :
    meetingInv (resultRecord (process_meeting fsNone jlC3 wC3) rec1) ∧
    dbInv (MeetingPipeline.run fsNone jlC3 wC3 ["Denver".data] [rec1] []) :=
  ⟨processed_implies_analyzed_invariant.2.2.1 fsNone jlC3 wC3 rec1 rfl
  , processed_implies_analyzed_invariant.2.2.2 fsNone jlC3 wC3
      ["Denver".data] [rec1] []
      (fun m hm => absurd hm (List.not_mem_nil m))
      (by
        intro m hm
        rw [List.mem_singleton] at hm
        subst hm
        intro hh
        exact absurd hh (by decide))⟩
